import Mathlib

/-!
Verification of the virtio-spec definitions crate.

The Rust crate defines the wire-level data model of the VIRTIO
specification: device IDs, ring event flags, per-device configuration
layouts (balloon, console), console control messages, and the
`DeviceConfigSpace` trait for atomic configuration-space reads.

This file gives a shallow embedding of those definitions and proves the
specified properties about them.  Machine integers are modelled as `Nat`
with explicit bounds and `% 2^w` where overflow matters; fallible code
(the `unreachable!()` branch of `RingEventFlags::from_bits`) is
modelled with `Option`.
-/

namespace Virtio

/-- Virtio Device IDs (`Id` in `lib.rs`).  The `Unknown` variant is the
`num_enum` catch-all that preserves unrecognized `u8` values. -/
inductive Id where
  | Reserved
  | Net
  | Block
  | Console
  | Rng
  | Balloon
  | IoMem
  | Rpmsg
  | Scsi
  | NineP
  | Mac80211Wlan
  | RprocSerial
  | Caif
  | MemoryBalloon
  | Gpu
  | Clock
  | Input
  | Vsock
  | Crypto
  | SignalDist
  | Pstore
  | Iommu
  | Mem
  | Sound
  | Fs
  | Pmem
  | Rpmb
  | Mac80211Hwsim
  | VideoEncoder
  | VideoDecoder
  | Scmi
  | NitroSecMod
  | I2cAdapter
  | Watchdog
  | Can
  | ParamServ
  | AudioPolicy
  | Bt
  | Gpio
  | Rdma
  | Unknown (v : Nat)
  deriving DecidableEq, Repr

/-- `From<u8> for Id` (derived by `num_enum::FromPrimitive` with
`#[num_enum(catch_all)]` on `Unknown`): a `u8` matching a named
discriminant maps to that variant, anything else to `Unknown v`. -/
def Id.fromU8 (v : Nat) : Id :=
  match v with
  | 0 => .Reserved
  | 1 => .Net
  | 2 => .Block
  | 3 => .Console
  | 4 => .Rng
  | 5 => .Balloon
  | 6 => .IoMem
  | 7 => .Rpmsg
  | 8 => .Scsi
  | 9 => .NineP
  | 10 => .Mac80211Wlan
  | 11 => .RprocSerial
  | 12 => .Caif
  | 13 => .MemoryBalloon
  | 16 => .Gpu
  | 17 => .Clock
  | 18 => .Input
  | 19 => .Vsock
  | 20 => .Crypto
  | 21 => .SignalDist
  | 22 => .Pstore
  | 23 => .Iommu
  | 24 => .Mem
  | 25 => .Sound
  | 26 => .Fs
  | 27 => .Pmem
  | 28 => .Rpmb
  | 29 => .Mac80211Hwsim
  | 30 => .VideoEncoder
  | 31 => .VideoDecoder
  | 32 => .Scmi
  | 33 => .NitroSecMod
  | 34 => .I2cAdapter
  | 35 => .Watchdog
  | 36 => .Can
  | 38 => .ParamServ
  | 39 => .AudioPolicy
  | 40 => .Bt
  | 41 => .Gpio
  | 42 => .Rdma
  | _ => .Unknown v

/-- `From<Id> for u8` (derived by `num_enum::IntoPrimitive`): each named
variant maps to its discriminant, `Unknown v` to the stored value. -/
def Id.intoU8 : Id → Nat
  | .Reserved => 0
  | .Net => 1
  | .Block => 2
  | .Console => 3
  | .Rng => 4
  | .Balloon => 5
  | .IoMem => 6
  | .Rpmsg => 7
  | .Scsi => 8
  | .NineP => 9
  | .Mac80211Wlan => 10
  | .RprocSerial => 11
  | .Caif => 12
  | .MemoryBalloon => 13
  | .Gpu => 16
  | .Clock => 17
  | .Input => 18
  | .Vsock => 19
  | .Crypto => 20
  | .SignalDist => 21
  | .Pstore => 22
  | .Iommu => 23
  | .Mem => 24
  | .Sound => 25
  | .Fs => 26
  | .Pmem => 27
  | .Rpmb => 28
  | .Mac80211Hwsim => 29
  | .VideoEncoder => 30
  | .VideoDecoder => 31
  | .Scmi => 32
  | .NitroSecMod => 33
  | .I2cAdapter => 34
  | .Watchdog => 35
  | .Can => 36
  | .ParamServ => 38
  | .AudioPolicy => 39
  | .Bt => 40
  | .Gpio => 41
  | .Rdma => 42
  | .Unknown v => v

/-- Descriptor Ring Change Event Flags (`RingEventFlags` in `lib.rs`).
The source enum has four variants: `Enable = 0x0`, `Disable = 0x1`,
`Desc = 0x2` and `Reserved = 0x3`. -/
inductive RingEventFlags where
  | Enable
  | Disable
  | Desc
  | Reserved
  deriving DecidableEq, Repr

/-- `RingEventFlags::from_bits`.  The source panics via `unreachable!()`
on inputs outside `0..=3`; the panic is modelled as `none`. -/
def RingEventFlags.from_bits (bits : Nat) : Option RingEventFlags :=
  match bits with
  | 0 => some .Enable
  | 1 => some .Disable
  | 2 => some .Desc
  | 3 => some .Reserved
  | _ => none

/-- `RingEventFlags::into_bits` (`self as u8`). -/
def RingEventFlags.into_bits : RingEventFlags → Nat
  | .Enable => 0
  | .Disable => 1
  | .Desc => 2
  | .Reserved => 3

namespace console

/-- Console control event kinds (`console::Device` in `console.rs`).
`Unknown` is the `num_enum` catch-all preserving unrecognized `u16`
values. -/
inductive Device where
  | DeviceReady
  | DeviceAdd
  | DeviceRemove
  | PortReady
  | ConsolePort
  | Resize
  | PortOpen
  | PortName
  | Unknown (v : Nat)
  deriving DecidableEq, Repr

/-- `From<u16> for Device` (derived by `num_enum::FromPrimitive` with
`#[num_enum(catch_all)]` on `Unknown`). -/
def Device.fromU16 (v : Nat) : Device :=
  match v with
  | 0 => .DeviceReady
  | 1 => .DeviceAdd
  | 2 => .DeviceRemove
  | 3 => .PortReady
  | 4 => .ConsolePort
  | 5 => .Resize
  | 6 => .PortOpen
  | 7 => .PortName
  | _ => .Unknown v

/-- `From<Device> for u16` (derived by `num_enum::IntoPrimitive`). -/
def Device.intoU16 : Device → Nat
  | .DeviceReady => 0
  | .DeviceAdd => 1
  | .DeviceRemove => 2
  | .PortReady => 3
  | .ConsolePort => 4
  | .Resize => 5
  | .PortOpen => 6
  | .PortName => 7
  | .Unknown v => v

end console

/-- Little-endian byte serialization of a 16-bit value (`le16` from the
`endian_num` crate): low byte first. -/
def le16Bytes (x : Nat) : List Nat :=
  [x % 256, x / 256 % 256]

/-- Little-endian byte serialization of a 32-bit value (`le32` from the
`endian_num` crate): low byte first. -/
def le32Bytes (x : Nat) : List Nat :=
  [x % 256, x / 256 % 256, x / 256 ^ 2 % 256, x / 256 ^ 3 % 256]

/-- Little-endian reconstruction of a natural number from a byte list. -/
def fromBytesLE : List Nat → Nat
  | [] => 0
  | b :: bs => b + 256 * fromBytesLE bs

namespace balloon

/-- Traditional Memory Balloon Device Configuration Layout
(`balloon::Config`, `#[repr(C)]`): four consecutive `le32` fields. -/
structure Config where
  num_pages : Nat
  actual : Nat
  free_page_hint_cmd_id : Nat
  poison_val : Nat

/-- The `#[repr(C)]` in-memory byte image of `balloon::Config`: the four
`le32` fields laid out in declaration order with no padding. -/
def Config.toBytes (c : Config) : List Nat :=
  le32Bytes c.num_pages ++ le32Bytes c.actual ++
    le32Bytes c.free_page_hint_cmd_id ++ le32Bytes c.poison_val

end balloon

namespace console

/-- Console Device Configuration Layout (`console::Config`,
`#[repr(C)]`): `cols: le16`, `rows: le16`, `max_nr_ports: le32`,
`emerg_wr: le32`. -/
structure Config where
  cols : Nat
  rows : Nat
  max_nr_ports : Nat
  emerg_wr : Nat

/-- The `#[repr(C)]` in-memory byte image of `console::Config`: the
fields laid out in declaration order with no padding (offsets 0, 2, 4,
8). -/
def Config.toBytes (c : Config) : List Nat :=
  le16Bytes c.cols ++ le16Bytes c.rows ++
    le32Bytes c.max_nr_ports ++ le32Bytes c.emerg_wr

/-- Control Message (`console::Control`, `#[repr(C)]`): `id: le32`,
`event: le16`, `value: le16`. -/
structure Control where
  id : Nat
  event : Nat
  value : Nat
  deriving DecidableEq, Repr

/-- The `#[repr(C)]` in-memory byte image of `console::Control`
(`zerocopy::IntoBytes`): the fields laid out in declaration order with
no padding (offsets 0, 4, 6; total size 8). -/
def Control.toBytes (c : Control) : List Nat :=
  le32Bytes c.id ++ le16Bytes c.event ++ le16Bytes c.value

/-- Decoding a `console::Control` from its 8-byte in-memory image
(`zerocopy::FromBytes`: every bit pattern is a valid `Control`). -/
def Control.fromBytes (bs : List Nat) : Control :=
  { id := fromBytesLE (bs.take 4)
    event := fromBytesLE ((bs.drop 4).take 2)
    value := fromBytesLE ((bs.drop 6).take 2) }

end console

/-- Modelled from the spec: the device side of the configuration area.
`DeviceConfigSpace::read_config_with` is only a trait declaration in the
crate; its implementations (over the MMIO and PCI transports) are not
part of the sources, so the device is modelled from §4.1 and the data
model: `gen` is the atomicity/generation indicator at each instant and
`cfg` the contents of the configuration area at each instant, both
updated asynchronously by the device. -/
structure ConfigDevice (Cfg : Type) where
  gen : Nat → Nat
  cfg : Nat → Cfg

/-- Modelled from the spec: one invocation of the caller-supplied
`read_fn`, which "performs one or more raw field reads from the config
area".  Reading starts at instant `t`; each successive field is read one
instant later, so a device update between two field reads is
observable. -/
def readFieldsFrom {Cfg : Type} (d : ConfigDevice Cfg) :
    List (Cfg → Nat) → Nat → List Nat
  | [], _ => []
  | f :: fs, t => f (d.cfg t) :: readFieldsFrom d fs (t + 1)

/-- Modelled from the spec: `DeviceConfigSpace::read_config_with`.  The
generation indicator is sampled before and after invoking `read_fn`; the
whole read is retried whenever the two samples differ.  The source loop
is unbounded; `fuel` bounds the recursion for the embedding only, with
`none` standing for "still retrying", never for an error.  On success
the result carries the instant at which the returned invocation
started. -/
def read_config_with {Cfg : Type} (d : ConfigDevice Cfg)
    (fields : List (Cfg → Nat)) : Nat → Nat → Option (List Nat × Nat)
  | 0, _ => none
  | fuel + 1, t =>
    let before := d.gen t
    let v := readFieldsFrom d fields (t + 1)
    let after := d.gen (t + 1 + fields.length)
    if before = after then some (v, t)
    else read_config_with d fields fuel (t + 2 + fields.length)

/-- A concrete device whose generation indicator and configuration
contents never change, used to instantiate the config-reader
theorems at explicit inputs. -/
def constDevice : ConfigDevice Nat where
  gen := fun _ => 0
  cfg := fun _ => 7

/-- Driver-side access mode of a configuration field, as declared by the
`#[access(...)]` attributes consumed by `VolatileFieldAccess`:
`ReadOnly` generates only a read accessor, `ReadWrite` also a write
accessor. -/
inductive Access where
  | ReadOnly
  | ReadWrite
  deriving DecidableEq, Repr

/-- The declared driver-side access modes of `balloon::Config`, field by
field, in declaration order (from the `#[access(...)]` attributes in
`balloon.rs`). -/
def balloon.Config.fieldAccess : List (String × Access) :=
  [("num_pages", .ReadOnly),
   ("actual", .ReadWrite),
   ("free_page_hint_cmd_id", .ReadOnly),
   ("poison_val", .ReadWrite)]

/-- The declared driver-side access modes of `console::Config`, field by
field, in declaration order (from the `#[access(...)]` attributes in
`console.rs`). -/
def console.Config.fieldAccess : List (String × Access) :=
  [("cols", .ReadOnly),
   ("rows", .ReadOnly),
   ("max_nr_ports", .ReadOnly),
   ("emerg_wr", .ReadOnly)]

/-- Errors surfaced to callers of the event-suppression control. -/
inductive VirtioError where
  | UnsupportedFeature
  deriving DecidableEq, Repr

/-- Modelled from the spec: the repository only documents on
`RingEventFlags::Desc` that it is "Only valid if VIRTIO_F_EVENT_IDX has
been negotiated"; the operation that installs an event-flags value is
not part of the crate.  Following §4.4 of the design: selecting `Desc`
without the negotiated capability is reported as the caller error
`UnsupportedFeature`; every other selection (and `Desc` with the
capability) installs the requested state. -/
def setEventFlags (eventIdxNegotiated : Bool) (_current requested : RingEventFlags) :
    Except VirtioError RingEventFlags :=
  match requested with
  | .Desc =>
    if eventIdxNegotiated then .ok .Desc else .error .UnsupportedFeature
  | f => .ok f

/-- Modelled from the spec: the event-flags state after an attempted
transition — unchanged from `current` when `setEventFlags` reports an
error. -/
def eventFlagsAfter (eventIdxNegotiated : Bool) (current requested : RingEventFlags) :
    RingEventFlags :=
  match setEventFlags eventIdxNegotiated current requested with
  | .ok next => next
  | .error _ => current

/-- Every `u16` round-trips through `console::Device`: the named
variants return their discriminants and the catch-all stores its
argument unchanged. -/
theorem console_device_roundtrip (v : Nat) :
    console.Device.intoU16 (console.Device.fromU16 v) = v := by
  match v with
  | 0 => rfl
  | 1 => rfl
  | 2 => rfl
  | 3 => rfl
  | 4 => rfl
  | 5 => rfl
  | 6 => rfl
  | 7 => rfl
  | n + 8 => rfl

set_option maxRecDepth 8192 in
/-- C4: Enum types carrying wire values preserve unrecognized values:
converting any `u8` to `Id` and back, or any `u16` to `console::Device`
and back, yields the original integer, including values that match no
named variant (retained in the `Unknown` catch-all). -/
theorem enum_catch_all_roundtrip :
    (∀ v : Fin 256, Id.intoU8 (Id.fromU8 v.val) = v.val) ∧
    (∀ v : Fin 65536, console.Device.intoU16 (console.Device.fromU16 v.val) = v.val) :=
  ⟨by decide, fun v => console_device_roundtrip v.val⟩

/-- C2 counterexample: the event-flags field does not decode onto only
three states.  The concrete two-bit value `3` decodes to the fourth
variant `Reserved`, which is none of `Enable`, `Disable`, `Desc`. -/
theorem ring_event_flags_not_three_states :
    RingEventFlags.from_bits 3 = some RingEventFlags.Reserved ∧
    RingEventFlags.Reserved ≠ RingEventFlags.Enable ∧
    RingEventFlags.Reserved ≠ RingEventFlags.Disable ∧
    RingEventFlags.Reserved ≠ RingEventFlags.Desc := by
  decide

/-- C2 amended: the event suppression control has exactly four states —
`Enable` (0), `Disable` (1), `Desc` (2) and `Reserved` (3) — and every
two-bit value of the event-flags field decodes to one of these four. -/
theorem ring_event_flags_four_states :
    ∀ b : Fin 4,
      RingEventFlags.from_bits b.val = some RingEventFlags.Enable ∨
      RingEventFlags.from_bits b.val = some RingEventFlags.Disable ∨
      RingEventFlags.from_bits b.val = some RingEventFlags.Desc ∨
      RingEventFlags.from_bits b.val = some RingEventFlags.Reserved := by
  decide

/-- C8: the `RingEventFlags` conversions are mutually inverse on the
valid range: `from_bits (into_bits x) = x` for every flag value `x`, and
`into_bits (from_bits b) = b` for every two-bit integer `b`. -/
theorem ring_event_flags_bits_inverse :
    (∀ x : RingEventFlags,
      RingEventFlags.from_bits (RingEventFlags.into_bits x) = some x) ∧
    (∀ b : Fin 4,
      (RingEventFlags.from_bits b.val).map RingEventFlags.into_bits = some b.val) := by
  constructor
  · intro x
    cases x <;> rfl
  · decide

set_option maxRecDepth 8192 in
/-- C9: `RingEventFlags::from_bits` is total under its precondition: on
every `u8` input it returns a value exactly when the input is at most 3;
the `unreachable!()` panic branch is reachable only for inputs greater
than 3. -/
theorem ring_event_flags_from_bits_total :
    ∀ b : Fin 256, (RingEventFlags.from_bits b.val).isSome ↔ b.val ≤ 3 := by
  decide

/-- Little-endian reconstruction inverts `le32Bytes` up to the 32-bit
width of the field. -/
theorem fromBytesLE_le32Bytes (x : Nat) :
    fromBytesLE (le32Bytes x) = x % 2 ^ 32 := by
  simp only [le32Bytes, fromBytesLE]
  omega

/-- Little-endian reconstruction inverts `le16Bytes` up to the 16-bit
width of the field. -/
theorem fromBytesLE_le16Bytes (x : Nat) :
    fromBytesLE (le16Bytes x) = x % 2 ^ 16 := by
  simp only [le16Bytes, fromBytesLE]
  omega

/-- C5: the shared-memory layouts match the wire format exactly.
`balloon::Config` is 16 bytes: four consecutive 32-bit little-endian
fields at offsets 0, 4, 8, 12 in the order `num_pages`, `actual`,
`free_page_hint_cmd_id`, `poison_val`.  `console::Config` is 12 bytes:
`cols` (16-bit, offset 0), `rows` (16-bit, offset 2), `max_nr_ports`
(32-bit, offset 4), `emerg_wr` (32-bit, offset 8).  `console::Control`
is 8 bytes: `id` (32-bit, offset 0), `event` (16-bit, offset 4),
`value` (16-bit, offset 6).  Each field is recovered from its offset by
little-endian reconstruction. -/
theorem config_layouts_match_wire_format :
    (∀ c : balloon.Config,
      c.toBytes.length = 16 ∧
      fromBytesLE (c.toBytes.take 4) = c.num_pages % 2 ^ 32 ∧
      fromBytesLE ((c.toBytes.drop 4).take 4) = c.actual % 2 ^ 32 ∧
      fromBytesLE ((c.toBytes.drop 8).take 4) = c.free_page_hint_cmd_id % 2 ^ 32 ∧
      fromBytesLE ((c.toBytes.drop 12).take 4) = c.poison_val % 2 ^ 32) ∧
    (∀ c : console.Config,
      c.toBytes.length = 12 ∧
      fromBytesLE (c.toBytes.take 2) = c.cols % 2 ^ 16 ∧
      fromBytesLE ((c.toBytes.drop 2).take 2) = c.rows % 2 ^ 16 ∧
      fromBytesLE ((c.toBytes.drop 4).take 4) = c.max_nr_ports % 2 ^ 32 ∧
      fromBytesLE ((c.toBytes.drop 8).take 4) = c.emerg_wr % 2 ^ 32) ∧
    (∀ c : console.Control,
      c.toBytes.length = 8 ∧
      fromBytesLE (c.toBytes.take 4) = c.id % 2 ^ 32 ∧
      fromBytesLE ((c.toBytes.drop 4).take 2) = c.event % 2 ^ 16 ∧
      fromBytesLE ((c.toBytes.drop 6).take 2) = c.value % 2 ^ 16) := by
  refine ⟨fun c => ?_, fun c => ?_, fun c => ?_⟩ <;>
      simp only [balloon.Config.toBytes, console.Config.toBytes,
        console.Control.toBytes, le32Bytes, le16Bytes, List.append_assoc,
        List.cons_append, List.nil_append, List.length_cons, List.length_nil,
        List.take, List.drop, fromBytesLE]
  · exact ⟨by trivial, by omega, by omega, by omega, by omega⟩
  · exact ⟨by trivial, by omega, by omega, by omega, by omega⟩
  · exact ⟨by trivial, by omega, by omega, by omega⟩

/-- C10: every 8-byte sequence is a valid `console::Control` message and
encoding is a bijection with the 8-byte wire image: decoding any 8-byte
string and re-encoding yields the identical bytes, and any `Control`
value within field bounds survives an encode/decode round trip. -/
theorem control_bytes_bijection :
    (∀ c : console.Control, c.id < 2 ^ 32 → c.event < 2 ^ 16 → c.value < 2 ^ 16 →
      console.Control.fromBytes c.toBytes = c) ∧
    (∀ bs : List Nat, bs.length = 8 → (∀ b ∈ bs, b < 256) →
      (console.Control.fromBytes bs).toBytes = bs) := by
  constructor
  · rintro ⟨i, e, v⟩ hi he hv
    dsimp only at hi he hv
    simp only [console.Control.toBytes, console.Control.fromBytes, le32Bytes,
      le16Bytes, List.cons_append, List.nil_append, List.take, List.drop,
      fromBytesLE, console.Control.mk.injEq]
    refine ⟨?_, ?_, ?_⟩ <;> omega
  · intro bs hlen hb
    match bs, hlen with
    | [b0, b1, b2, b3, b4, b5, b6, b7], _ =>
      simp only [List.mem_cons, List.not_mem_nil, or_false, forall_eq_or_imp,
        forall_eq] at hb
      obtain ⟨h0, h1, h2, h3, h4, h5, h6, h7⟩ := hb
      simp only [console.Control.fromBytes, console.Control.toBytes, le32Bytes,
        le16Bytes, List.take, List.drop, fromBytesLE, List.cons_append,
        List.nil_append, List.cons.injEq, and_true]
      refine ⟨?_, ?_, ?_, ?_, ?_, ?_, ?_, ?_⟩ <;> omega

/-- Witness for C10 at a concrete `Control` value and the concrete
8-byte string of an incrementing ramp. -/
theorem control_bytes_bijection_witness :
    console.Control.fromBytes
        (console.Control.toBytes ⟨305419896, 4660, 43981⟩) =
      ⟨305419896, 4660, 43981⟩ ∧
    (console.Control.fromBytes [0, 1, 2, 3, 4, 5, 6, 7]).toBytes =
      [0, 1, 2, 3, 4, 5, 6, 7] :=
  ⟨control_bytes_bijection.1 ⟨305419896, 4660, 43981⟩ (by decide) (by decide)
      (by decide),
   control_bytes_bijection.2 [0, 1, 2, 3, 4, 5, 6, 7] (by decide) (by decide)⟩

/-- A monotone generation counter is constant between two instants where
it takes equal values. -/
theorem gen_const_of_eq {Cfg : Type} (d : ConfigDevice Cfg)
    (mono : ∀ u, d.gen u ≤ d.gen (u + 1)) {a b : Nat} (_hab : a ≤ b)
    (heq : d.gen a = d.gen b) :
    ∀ t, a ≤ t → t ≤ b → d.gen t = d.gen a := by
  have step : ∀ u v : Nat, u ≤ v → d.gen u ≤ d.gen v := by
    intro u v huv
    induction v with
    | zero => cases Nat.le_zero.mp huv; exact Nat.le_refl _
    | succ w ih =>
      rcases Nat.lt_or_ge u (w + 1) with h | h
      · exact Nat.le_trans (ih (Nat.lt_succ_iff.mp h)) (mono w)
      · cases Nat.le_antisymm huv h
        exact Nat.le_refl _
  intro t hat htb
  exact Nat.le_antisymm (heq ▸ step t b htb) (step a t hat)

/-- If the generation indicator is equal at the two endpoints of an
interval and the device increments it around every configuration
update, the configuration contents are constant on the interval. -/
theorem cfg_const_of_gen_eq {Cfg : Type} (d : ConfigDevice Cfg)
    (mono : ∀ u, d.gen u ≤ d.gen (u + 1))
    (upd : ∀ u, d.cfg (u + 1) ≠ d.cfg u → d.gen u < d.gen (u + 1))
    {a b : Nat} (hab : a ≤ b) (heq : d.gen a = d.gen b) :
    ∀ t, a ≤ t → t ≤ b → d.cfg t = d.cfg a := by
  intro t hat htb
  induction t with
  | zero => cases Nat.le_zero.mp hat; rfl
  | succ w ih =>
    rcases Nat.lt_or_ge a (w + 1) with h | h
    · have haw : a ≤ w := Nat.lt_succ_iff.mp h
      have hwb : w ≤ b := Nat.le_trans (Nat.le_succ w) htb
      have hcw : d.cfg w = d.cfg a := ih haw hwb
      have hgw : d.gen w = d.gen a :=
        gen_const_of_eq d mono hab heq w haw hwb
      have hgw1 : d.gen (w + 1) = d.gen a :=
        gen_const_of_eq d mono hab heq (w + 1) hat htb
      have : d.cfg (w + 1) = d.cfg w := by
        by_contra hne
        exact absurd (hgw1.trans hgw.symm) (Nat.ne_of_gt (upd w hne))
      exact this.trans hcw
    · cases Nat.le_antisymm hat h
      rfl

/-- If the configuration contents are constant over the instants a
`read_fn` invocation touches, the invocation reads the single snapshot
`d.cfg c` field by field. -/
theorem readFieldsFrom_const {Cfg : Type} (d : ConfigDevice Cfg)
    (fields : List (Cfg → Nat)) (s c : Nat)
    (hconst : ∀ u, s ≤ u → u < s + fields.length → d.cfg u = d.cfg c) :
    readFieldsFrom d fields s = fields.map fun f => f (d.cfg c) := by
  induction fields generalizing s with
  | nil => rfl
  | cons f fs ih =>
    simp only [readFieldsFrom, List.map, List.cons.injEq]
    refine ⟨?_, ?_⟩
    · rw [hconst s (Nat.le_refl s) (by simp [List.length_cons])]
    · exact ih (s + 1) fun u hu hu' => hconst u (by omega)
        (by simp only [List.length_cons]; omega)

/-- C1: whenever `read_config_with` returns, the generation indicator
was the same before and after the returned invocation of `read_fn`, and
— the device incrementing the indicator around every configuration
update — the returned value is the field-by-field image of the single
configuration snapshot at that invocation: never a torn mix of two
generations. -/
theorem read_config_with_untorn {Cfg : Type} (d : ConfigDevice Cfg)
    (fields : List (Cfg → Nat)) (fuel t0 : Nat) (v : List Nat) (t : Nat)
    (mono : ∀ u, d.gen u ≤ d.gen (u + 1))
    (upd : ∀ u, d.cfg (u + 1) ≠ d.cfg u → d.gen u < d.gen (u + 1))
    (h : read_config_with d fields fuel t0 = some (v, t)) :
    d.gen t = d.gen (t + 1 + fields.length) ∧
    v = fields.map fun f => f (d.cfg t) := by
  induction fuel generalizing t0 with
  | zero => simp [read_config_with] at h
  | succ n ih =>
    simp only [read_config_with] at h
    split at h
    case isTrue hg =>
      obtain ⟨hv, ht⟩ : readFieldsFrom d fields (t0 + 1) = v ∧ t0 = t := by
        simpa using h
      subst ht
      refine ⟨hg, ?_⟩
      rw [← hv]
      refine readFieldsFrom_const d fields (t0 + 1) t0 fun u hu hu' => ?_
      exact cfg_const_of_gen_eq d mono upd (by omega) hg u (by omega) (by omega)
    case isFalse hg =>
      exact ih (t0 + 2 + fields.length) h

/-- Witness for C1 on the constant device, one identity field,
fuel 1: the loop returns `([7], 0)` at once. -/
theorem read_config_with_untorn_witness :
    constDevice.gen 0 =
      constDevice.gen (0 + 1 + ([fun c : Nat => c] : List (Nat → Nat)).length) ∧
    [7] = ([fun c : Nat => c] : List (Nat → Nat)).map
      fun f => f (constDevice.cfg 0) :=
  read_config_with_untorn constDevice [fun c => c] 1 0 [7] 0
    (fun _ => Nat.le_refl 0) (fun _ hne => absurd rfl hne) rfl

/-- C7: `read_config_with` signals no failure: the only possible
outcomes are retrying further or returning, and whenever it returns, the
returned value is exactly what the invocation of `read_fn` starting at
the returned instant produced — there is no error case. -/
theorem read_config_with_no_failure {Cfg : Type} (d : ConfigDevice Cfg)
    (fields : List (Cfg → Nat)) (fuel t0 : Nat) (v : List Nat) (t : Nat)
    (h : read_config_with d fields fuel t0 = some (v, t)) :
    v = readFieldsFrom d fields (t + 1) := by
  induction fuel generalizing t0 with
  | zero => simp [read_config_with] at h
  | succ n ih =>
    simp only [read_config_with] at h
    split at h
    case isTrue hg =>
      obtain ⟨hv, ht⟩ : readFieldsFrom d fields (t0 + 1) = v ∧ t0 = t := by
        simpa using h
      subst ht
      exact hv.symm
    case isFalse hg =>
      exact ih (t0 + 2 + fields.length) h

/-- Witness for C7 on the constant device, one identity field,
fuel 1. -/
theorem read_config_with_no_failure_witness :
    [7] = readFieldsFrom constDevice [fun c : Nat => c] (0 + 1) :=
  read_config_with_no_failure constDevice [fun c => c] 1 0 [7] 0 rfl

/-- C3 counterexample: a configuration layout does expose a driver-side
write accessor.  The concrete field `actual` of `balloon::Config` is
declared `ReadWrite`, so the driver may write it. -/
theorem balloon_config_has_write_accessor :
    ("actual", Access.ReadWrite) ∈ balloon.Config.fieldAccess ∧
    Access.ReadWrite ≠ Access.ReadOnly := by
  decide

/-- C3 amended: every field of the console configuration layout is
read-only to the driver, but the balloon configuration layout exposes
driver-side write accessors for exactly its `actual` and `poison_val`
fields; its other fields are read-only. -/
theorem config_access_modes :
    (∀ p ∈ console.Config.fieldAccess, p.2 = Access.ReadOnly) ∧
    (∀ p ∈ balloon.Config.fieldAccess,
      (p.2 = Access.ReadWrite ↔ (p.1 = "actual" ∨ p.1 = "poison_val"))) := by
  constructor
  · intro p hp
    fin_cases hp <;> rfl
  · intro p hp
    fin_cases hp <;> simp

/-- Witness for C3 amended at the concrete fields `cols` (console) and
`actual` (balloon). -/
theorem config_access_modes_witness :
    (("cols", Access.ReadOnly) : String × Access).2 = Access.ReadOnly ∧
    ((("actual", Access.ReadWrite) : String × Access).2 = Access.ReadWrite ↔
      ((("actual", Access.ReadWrite) : String × Access).1 = "actual" ∨
       (("actual", Access.ReadWrite) : String × Access).1 = "poison_val")) :=
  ⟨config_access_modes.1 ("cols", Access.ReadOnly) (by decide),
   config_access_modes.2 ("actual", Access.ReadWrite) (by decide)⟩

/-- C6: selecting `Desc` while VIRTIO_F_EVENT_IDX is unnegotiated
returns the error `UnsupportedFeature` and performs no state change,
from every current state. -/
theorem desc_without_event_idx_unsupported :
    ∀ current : RingEventFlags,
      setEventFlags false current RingEventFlags.Desc =
        Except.error VirtioError.UnsupportedFeature ∧
      eventFlagsAfter false current RingEventFlags.Desc = current := by
  exact fun _ => ⟨rfl, rfl⟩

end Virtio
